import Mathlib

/-!
Verification development for the `usbip` crate (USB/IP protocol server).

The registry (`src/usbip_server.rs`), the per-connection handler loop
(`src/usbip_server/server.rs`), the host-backend device constructions
(`src/usbip_server/nusb_impl.rs`, `src/usbip_server/rusb_impl.rs`) and the
descriptor walk (`src/util.rs`) are shallowly embedded below.  Rust `String`
bus-ids are modelled by their UTF-8 byte lists (`List Nat`), `HashMap` by an
association list with unique keys, and Tokio's `RwLock`-guarded critical
sections by single atomic steps of the embedded functions.
-/

namespace Usbip

/-- A bus-id (the bytes of the Rust `String`; equality of strings is equality
of their UTF-8 bytes). -/
abbrev BusId := List Nat

/-- `UsbEndpoint` from §3 of the data model (`endpoint.rs` is not in `src/`;
fields follow the uses in `nusb_impl.rs` / `rusb_impl.rs`): 8-bit address,
8-bit attribute byte, 16-bit max packet size, 8-bit polling interval. -/
structure UsbEndpoint where
  address : Nat
  attributes : Nat
  max_packet_size : Nat
  interval : Nat
deriving DecidableEq, Repr

/-- `UsbInterface` as constructed in `nusb_impl.rs` / `rusb_impl.rs`
(`interface.rs` is not in `src/`); the interface handler is not representable
as data and URB handling is abstracted by the `UrbHandler` parameter below. -/
structure UsbInterface where
  interface_class : Nat
  interface_subclass : Nat
  interface_protocol : Nat
  endpoints : List UsbEndpoint
  string_interface : Nat
  class_specific_descriptor : List Nat
deriving DecidableEq, Repr

/-- `UsbDevice` as constructed in `nusb_impl.rs` / `rusb_impl.rs`
(`device.rs` is not in `src/`; scalar fields follow §3 of the spec).  The
device/interface handlers are abstracted by the `UrbHandler` parameter of the
session step. -/
structure UsbDevice where
  path : List Nat
  bus_id : BusId
  bus_num : Nat
  dev_num : Nat
  speed : Nat
  vendor_id : Nat
  product_id : Nat
  device_class : Nat
  device_subclass : Nat
  device_protocol : Nat
  device_bcd : Nat
  usb_version : Nat
  configuration_value : Nat
  num_configurations : Nat
  ep0_in : UsbEndpoint
  ep0_out : UsbEndpoint
  interfaces : List UsbInterface
deriving DecidableEq, Repr

/-- The `HashMap<String, UsbDevice>` of `used_devices`, as an association
list (keys are unique in every reachable state, see `RegInv`). -/
abbrev UsedMap := List (BusId × UsbDevice)

/-- `HashMap::get`: the value stored under `k`. -/
def hmGet : UsedMap → BusId → Option UsbDevice
  | [], _ => none
  | p :: rest, k => if p.1 = k then some p.2 else hmGet rest k

/-- The removal part of `HashMap::remove`: drop the (first) entry with key
`k`. -/
def hmErase : UsedMap → BusId → UsedMap
  | [], _ => []
  | p :: rest, k => if p.1 = k then rest else p :: hmErase rest k

/-- `HashMap::insert`: store `v` under `k`, replacing any previous entry. -/
def hmInsert (m : UsedMap) (k : BusId) (v : UsbDevice) : UsedMap :=
  (k, v) :: hmErase m k

/-- `UsbIpServer` (src/usbip_server.rs:15-18): the two registry collections.
The `RwLock`s are embedded as atomic steps on this state. -/
structure ServerState where
  available : List UsbDevice
  used : UsedMap
deriving DecidableEq, Repr

/-- `UsbIpServer::new_simulated` (src/usbip_server.rs:22-27). -/
def new_simulated (devices : List UsbDevice) : ServerState :=
  { available := devices, used := [] }

/-- `UsbIpServer::add_device` (src/usbip_server.rs:33-35): push onto
*available*. -/
def add_device (s : ServerState) (device : UsbDevice) : ServerState :=
  { s with available := s.available ++ [device] }

/-- The `position` + `Vec::remove` composite used by `remove_device`
(src/usbip_server.rs:40-41): remove the first device whose `bus_id` matches,
or `none` when there is no match. -/
def removeFrom (bus_id : BusId) : List UsbDevice → Option (List UsbDevice)
  | [] => none
  | d :: rest =>
    if d.bus_id = bus_id then some rest
    else (removeFrom bus_id rest).map (fun l => d :: l)

/-- The error values of `UsbIpServer::remove_device`: `std::io::Error::other`
("in use") and `ErrorKind::NotFound`. -/
inductive RemoveError where
  | inUse
  | notFound
deriving DecidableEq, Repr

/-- `UsbIpServer::remove_device` (src/usbip_server.rs:37-60): drop from
*available* if present there; otherwise fail with "in use" when some value of
`used_devices` carries the bus-id, and with `NotFound` otherwise. -/
def remove_device (s : ServerState) (bus_id : BusId) :
    ServerState × Except RemoveError Unit :=
  match removeFrom bus_id s.available with
  | some available' => ({ s with available := available' }, .ok ())
  | none =>
    match (s.used.map (fun p => p.2)).find? (fun d => d.bus_id == bus_id) with
    | some _ => (s, .error .inUse)
    | none => (s, .error .notFound)

/-- The loop of the `OpReqImport` arm (src/usbip_server/server.rs:66-75):
scan *available* in order, and on the first device whose `bus_id` equals the
target remove it, returning the remaining list and the device. -/
def importFrom (target : BusId) : List UsbDevice → Option (List UsbDevice × UsbDevice)
  | [] => none
  | d :: rest =>
    if target = d.bus_id then some (rest, d)
    else (importFrom target rest).map (fun p => (d :: p.1, p.2))

/-- The busid truncation of src/usbip_server/server.rs:64-65:
`&busid[..busid.iter().position(|&x| x == 0).unwrap_or(busid.len())]`. -/
def truncBusid (busid : List Nat) : List Nat :=
  busid.take ((busid.findIdx? (fun x => x == 0)).getD busid.length)

/-- The session-cleanup move of src/usbip_server/server.rs:22-29: remove the
entry bound under `b` from `used_devices` and push the device back onto
`available_devices`; `none` models the `unreachable!()` panic when the key is
absent. -/
def releaseDevice (s : ServerState) (b : BusId) : Option ServerState :=
  match hmGet s.used b with
  | some dev =>
    some { available := s.available ++ [dev], used := hmErase s.used b }
  | none => none

/-- Bus-ids stored on the *available* side. -/
def availIds (s : ServerState) : List BusId := s.available.map (fun d => d.bus_id)

/-- Keys of the *imported* (`used_devices`) side. -/
def usedKeys (s : ServerState) : List BusId := s.used.map (fun p => p.1)

/-- All bus-ids known to the registry. -/
def busIds (s : ServerState) : List BusId := availIds s ++ usedKeys s

/-- The registry invariant of §3/§8: bus-ids are unique across both
collections (so a device is never in both), and every `used_devices` entry is
keyed by its device's own bus-id. -/
def RegInv (s : ServerState) : Prop :=
  (busIds s).Nodup ∧ ∀ p ∈ s.used, p.2.bus_id = p.1

instance (s : ServerState) : Decidable (RegInv s) := by
  unfold RegInv; infer_instance

/-! ## The per-connection handler loop (src/usbip_server/server.rs) -/

/-- The `io::Error` kinds the PDU decoder produces (spec §4.1: the decoder
fails with `UnexpectedEof` between PDUs on a clean disconnect and with
`InvalidData` on malformed input; `otherError` stands for any other I/O
failure).  The handler only ever tests for `unexpectedEof`. -/
inductive ErrKind where
  | unexpectedEof
  | invalidData
  | otherError
deriving DecidableEq, Repr

/-- `UsbIpHeaderBasic` (spec §4.1): the 48-byte basic header of every
command-phase PDU. -/
structure UsbIpHeaderBasic where
  command : Nat
  seqnum : Nat
  devid : Nat
  direction : Nat
  ep : Nat
deriving DecidableEq, Repr

/-- `USBIP_RET_SUBMIT` (spec §4.1: 0x00000003). -/
def USBIP_RET_SUBMIT : Nat := 3

/-- `USBIP_RET_UNLINK` (spec §4.1: 0x00000004). -/
def USBIP_RET_UNLINK : Nat := 4

/-- `UsbIpCommand`, the decoded request PDUs, with the fields the protocol
carries (spec §4.1; `usbip_protocol.rs` is not in `src/`, the shapes follow
the wire layout and the destructurings in `server.rs` and the tests). -/
inductive UsbIpCommand where
  | opReqDevlist (status : Nat)
  | opReqImport (status : Nat) (busid : List Nat)
  | usbIpCmdSubmit (header : UsbIpHeaderBasic) (transfer_flags : Nat)
      (transfer_buffer_length : Int) (start_frame : Nat)
      (number_of_packets : Nat) (interval : Nat) (setup : List Nat)
      (data : List Nat) (iso_packet_descriptor : List Nat)
  | usbIpCmdUnlink (header : UsbIpHeaderBasic) (unlink_seqnum : Nat)
deriving DecidableEq, Repr

/-- `UsbIpResponse`, the reply PDUs the handler sends. -/
inductive UsbIpResponse where
  | opRepDevlist (devices : List UsbDevice)
  | opRepImportSuccess (dev : UsbDevice)
  | opRepImportFail
  | usbipRetSubmit (header : UsbIpHeaderBasic) (status : Int)
      (actual_length : Nat) (transfer_buffer : List Nat)
  | usbipRetUnlink (header : UsbIpHeaderBasic) (status : Int)
deriving DecidableEq, Repr

/-- `UsbIpResponse::op_rep_devlist` over the *available* snapshot. -/
def op_rep_devlist (devices : List UsbDevice) : UsbIpResponse :=
  .opRepDevlist devices

/-- `UsbIpResponse::op_rep_import_success` (spec §4.1: status 0 plus the
device record). -/
def op_rep_import_success (dev : UsbDevice) : UsbIpResponse :=
  .opRepImportSuccess dev

/-- `UsbIpResponse::op_rep_import_fail` (spec §7: status 1, nothing else). -/
def op_rep_import_fail : UsbIpResponse := .opRepImportFail

/-- Modelled from the spec: `UsbIpResponse::usbip_ret_submit_success` lives in
`usbip_protocol.rs`, absent from `src/`.  §4.4: on success the reply carries
`status = 0` and `actual_length = response.len()`, plus the response bytes. -/
def usbip_ret_submit_success (header : UsbIpHeaderBasic) (resp : List Nat) :
    UsbIpResponse :=
  .usbipRetSubmit header 0 resp.length resp

/-- Modelled from the spec: `UsbIpResponse::usbip_ret_submit_fail` lives in
`usbip_protocol.rs`, absent from `src/`.  §4.4/§7: a stall reply carries
`status = -1` and zero actual length. -/
def usbip_ret_submit_fail (header : UsbIpHeaderBasic) : UsbIpResponse :=
  .usbipRetSubmit header (-1) 0 []

/-- Modelled from the spec: `UsbIpResponse::usbip_ret_unlink_success` lives in
`usbip_protocol.rs`, absent from `src/`.  §4.4: the unlink reply carries
`status = 0`. -/
def usbip_ret_unlink_success (header : UsbIpHeaderBasic) : UsbIpResponse :=
  .usbipRetUnlink header 0

/-- Modelled from the spec: `UsbDevice::find_ep` lives in `device.rs`, absent
from `src/`.  §3: the device carries synthetic ep0 descriptors at addresses
0x80 (IN) and 0x00 (OUT); §4.3: endpoint lookup walks the interfaces in order
and returns the first `(endpoint, interface)` whose address matches, IN and
OUT being distinct addresses.  Endpoint 0 resolves to the synthetic ep0
records (the control engine), with no owning interface. -/
def find_ep (d : UsbDevice) (addr : Nat) :
    Option (UsbEndpoint × Option UsbInterface) :=
  if addr = 0x80 then some (d.ep0_in, none)
  else if addr = 0x00 then some (d.ep0_out, none)
  else
    let rec go : List UsbInterface → Option (UsbEndpoint × Option UsbInterface)
      | [] => none
      | intf :: rest =>
        match intf.endpoints.find? (fun e => e.address == addr) with
        | some e => some (e, some intf)
        | none => go rest
    go d.interfaces

/-- The URB dispatch `UsbDevice::handle_urb` (together with
`SetupPacket::parse`) lives in `device.rs` / `setup.rs`, absent from `src/`;
the session step is proved for an arbitrary handler of this shape, taking the
device, the located endpoint and owning interface, `transfer_buffer_length`,
the raw 8 setup bytes and the OUT payload, and returning the response bytes
or an error. -/
abbrev UrbHandler :=
  UsbDevice → UsbEndpoint → Option UsbInterface → Int → List Nat → List Nat →
    Except Unit (List Nat)

/-- How one iteration of the handler loop ends: read the next PDU, return
`Ok(())`, or return an error. -/
inductive SessResult where
  | next
  | retOk
  | retErr (kind : ErrKind)
deriving DecidableEq, Repr

/-- The outcome of one handler-loop iteration: the registry afterwards, the
session's `current_import_device_id`, the reply written (if any) and how the
loop proceeds. -/
structure StepOut where
  reg : ServerState
  bound : Option BusId
  reply : Option UsbIpResponse
  result : SessResult
deriving DecidableEq, Repr

/-- The `OpReqImport` arm's registry transaction
(src/usbip_server/server.rs:55-84), performed under both write locks: truncate
the 32-byte busid at the first NUL, scan *available* in order, move the first
match into `used_devices` keyed by its bus-id and record it as bound; reply
success with the moved device, or failure leaving everything unchanged
(`current_import_device_id` was cleared before the scan). -/
def op_req_import (s : ServerState) (busid : List Nat) :
    ServerState × Option BusId × UsbIpResponse :=
  match importFrom (truncBusid busid) s.available with
  | some (available', dev) =>
    ({ available := available', used := hmInsert s.used dev.bus_id dev },
      some dev.bus_id, op_rep_import_success dev)
  | none => (s, none, op_rep_import_fail)

/-- One iteration of the handler loop (src/usbip_server/server.rs:19-151),
from the decoded PDU (or decode failure) to the reply and the next state.
`none` models a panic of the session task (`unreachable!()` at line 27 or the
`unwrap()` at line 93); panics unwind before any registry mutation. -/
def handlerStep (urb : UrbHandler) (reg : ServerState) (bound : Option BusId)
    (input : Except ErrKind UsbIpCommand) : Option StepOut :=
  match input with
  | .error err =>
    match bound with
    | some devId =>
      match releaseDevice reg devId with
      | some reg' =>
        if err = .unexpectedEof then some ⟨reg', none, none, .retOk⟩
        else some ⟨reg', none, none, .retErr err⟩
      | none => none
    | none =>
      if err = .unexpectedEof then some ⟨reg, none, none, .retOk⟩
      else some ⟨reg, none, none, .retErr err⟩
  | .ok cmd =>
    match cmd with
    | .opReqDevlist _ =>
      some ⟨reg, bound, some (op_rep_devlist reg.available), .next⟩
    | .opReqImport _ busid =>
      let r := op_req_import reg busid
      some ⟨r.1, r.2.1, some r.2.2, .next⟩
    | .usbIpCmdSubmit header _ transfer_buffer_length _ _ _ setup data _ =>
      match bound.bind (fun id => hmGet reg.used id) with
      | none => none
      | some device =>
        let realEp :=
          (if header.direction = 0 then header.ep else header.ep ||| 0x80) % 256
        let header' := { header with command := USBIP_RET_SUBMIT }
        let rep :=
          match find_ep device realEp with
          | none => usbip_ret_submit_fail header'
          | some (ep, intf) =>
            match urb device ep intf transfer_buffer_length setup data with
            | .ok resp => usbip_ret_submit_success header' resp
            | .error _ => usbip_ret_submit_fail header'
        some ⟨reg, bound, some rep, .next⟩
    | .usbIpCmdUnlink header _ =>
      let header' := { header with command := USBIP_RET_UNLINK }
      some ⟨reg, bound, some (usbip_ret_unlink_success header'), .next⟩

/-! ## The concurrent system: one registry, many sessions

`server` (src/usbip_server/server.rs:155-177) spawns one `handler` task per
accepted connection; all tasks share the registry behind its `RwLock`s, so
each locked section (one `handlerStep`, one `add_device`, one
`remove_device`) is one atomic step of the interleaving. -/

/-- The whole system: the shared registry plus each session task's local
`current_import_device_id` (`none` both for a fresh session and for a
finished or panicked one). -/
structure Sys where
  reg : ServerState
  sessions : List (Option BusId)
deriving DecidableEq, Repr

/-- One atomic step of the system: a new connection is accepted, some session
runs one handler-loop iteration (or panics attempting one), or an
administrative caller runs `add_device` / `remove_device`. -/
inductive SysStep (urb : UrbHandler) : Sys → Sys → Prop
  | spawn (s : Sys) :
      SysStep urb s ⟨s.reg, s.sessions ++ [none]⟩
  | session (s : Sys) (i : Nat) (b : Option BusId)
      (input : Except ErrKind UsbIpCommand) (out : StepOut)
      (hb : s.sessions[i]? = some b)
      (hstep : handlerStep urb s.reg b input = some out) :
      SysStep urb s ⟨out.reg, s.sessions.set i out.bound⟩
  | panicked (s : Sys) (i : Nat) (b : Option BusId)
      (input : Except ErrKind UsbIpCommand)
      (hb : s.sessions[i]? = some b)
      (hstep : handlerStep urb s.reg b input = none) :
      SysStep urb s ⟨s.reg, s.sessions.set i none⟩
  | adminAdd (s : Sys) (d : UsbDevice) (hfresh : d.bus_id ∉ busIds s.reg) :
      SysStep urb s ⟨add_device s.reg d, s.sessions⟩
  | adminRemove (s : Sys) (bid : BusId) :
      SysStep urb s ⟨(remove_device s.reg bid).1, s.sessions⟩

/-- Zero or more system steps. -/
inductive SysReach (urb : UrbHandler) : Sys → Sys → Prop
  | refl (s : Sys) : SysReach urb s s
  | tail (s t u : Sys) : SysReach urb s t → SysStep urb t u → SysReach urb s u

/-- The system invariant: the registry invariant holds, every bound bus-id is
a `used_devices` key, and no two sessions are bound to the same bus-id. -/
def SysInv (sys : Sys) : Prop :=
  RegInv sys.reg ∧
  (∀ (i : Nat) (b : BusId), sys.sessions[i]? = some (some b) →
    b ∈ usedKeys sys.reg) ∧
  (∀ (i j : Nat) (b : BusId), sys.sessions[i]? = some (some b) →
    sys.sessions[j]? = some (some b) → i = j)

/-! ## Host-backend device construction (nusb_impl.rs / rusb_impl.rs) -/

/-- Modelled from the spec: `EndpointAttributes::Control` lives in
`consts.rs`, absent from `src/`.  §3: bits 0-1 of the attribute byte are the
transfer type, in the order control / iso / bulk / interrupt, so control
is 0. -/
def controlAttr : Nat := 0

/-- The bus-id `with_nusb_devices` builds (src/usbip_server/nusb_impl.rs:69-74):
`format!("{}-{}-{}", bus_number, device_address, 0)` - the third component is
the literal 0, not the port number. -/
def nusb_bus_id (bus_number device_address : Nat) : String :=
  s!"{bus_number}-{device_address}-{0}"

/-- The path `with_nusb_devices` builds (src/usbip_server/nusb_impl.rs:63-68):
`format!("/sys/bus/{}/{}/{}", bus_number, device_address, 0)`. -/
def nusb_path (bus_number device_address : Nat) : String :=
  s!"/sys/bus/{bus_number}/{device_address}/{0}"

/-- The `ep0_in` record `with_nusb_devices` builds
(src/usbip_server/nusb_impl.rs:86-91): address 0x80, control attribute, and a
hard-coded max packet size of 16. -/
def nusb_ep0_in : UsbEndpoint :=
  { address := 0x80, attributes := controlAttr, max_packet_size := 16,
    interval := 0 }

/-- The `ep0_out` record `with_nusb_devices` builds
(src/usbip_server/nusb_impl.rs:92-97): address 0x00, control attribute, max
packet size 16. -/
def nusb_ep0_out : UsbEndpoint :=
  { address := 0x00, attributes := controlAttr, max_packet_size := 16,
    interval := 0 }

/-- The bus-id `with_rusb_device_handles` builds
(src/usbip_server/rusb_impl.rs:86-91):
`format!("{}-{}-{}", bus_number, address, port_number)`. -/
def rusb_bus_id (bus_number address port_number : Nat) : String :=
  s!"{bus_number}-{address}-{port_number}"

/-- The path `with_rusb_device_handles` builds
(src/usbip_server/rusb_impl.rs:80-85):
`format!("/sys/bus/{}/{}/{}", bus_number, address, port_number)`. -/
def rusb_path (bus_number address port_number : Nat) : String :=
  s!"/sys/bus/{bus_number}/{address}/{port_number}"

/-- The `ep0_in` record `with_rusb_device_handles` builds
(src/usbip_server/rusb_impl.rs:103-108): address 0x80, control attribute, max
packet size from the real device descriptor (`desc.max_packet_size()`). -/
def rusb_ep0_in (desc_max_packet_size : Nat) : UsbEndpoint :=
  { address := 0x80, attributes := controlAttr,
    max_packet_size := desc_max_packet_size, interval := 0 }

/-- The `ep0_out` record `with_rusb_device_handles` builds
(src/usbip_server/rusb_impl.rs:109-114). -/
def rusb_ep0_out (desc_max_packet_size : Nat) : UsbEndpoint :=
  { address := 0x00, attributes := controlAttr,
    max_packet_size := desc_max_packet_size, interval := 0 }

/-- The bus-id claim C9 asserts for every backend, following the claim's
words: `bus_id = "{bus}-{addr}-{port}"` from the device's bus number, device
address and port number. -/
def claimed_bus_id (bus addr port : Nat) : String := s!"{bus}-{addr}-{port}"

/-- The path claim C9 asserts, following the claim's words:
`path = "/sys/bus/{bus}/{addr}/{port}"`. -/
def claimed_path (bus addr port : Nat) : String :=
  s!"/sys/bus/{bus}/{addr}/{port}"

/-! ## The descriptor walk (src/util.rs) -/

/-- One bounded run of the `while offset < desc.len()` loop of
`verify_descriptor` (src/util.rs:3-6): perform at most `fuel` iterations of
`offset += desc[offset]`, and return the offset reached (once the loop
condition fails the offset no longer changes). -/
def walkIter (desc : List Nat) : Nat → Nat → Nat
  | 0, off => off
  | fuel + 1, off =>
    if off < desc.length then walkIter desc fuel (off + desc.getD off 0)
    else off

/-- Starting from `off`, the walk visits an in-bounds offset holding the
byte 0 (at which the loop stops making progress). -/
def BadVisitFrom (desc : List Nat) (off : Nat) : Prop :=
  ∃ n, walkIter desc n off < desc.length ∧
    desc.getD (walkIter desc n off) 0 = 0

/-- The walk of `verify_descriptor` (which starts at offset 0) visits an
in-bounds offset holding the byte 0. -/
def BadVisit (desc : List Nat) : Prop := BadVisitFrom desc 0

/-- `verify_descriptor` (src/util.rs:2-8), totalised by fuel: `desc.length`
loop iterations suffice whenever the loop terminates at all (each productive
iteration advances the offset by at least one), so `none` is an infinite
loop, `some true` a normal return, and `some false` the `assert_eq!` panic. -/
def verify_descriptor (desc : List Nat) : Option Bool :=
  if desc.length ≤ walkIter desc desc.length 0 then
    some (walkIter desc desc.length 0 == desc.length)
  else none

/-! ## Concrete sample values (used to instantiate the theorems) -/

/-- A sample control endpoint (IN). -/
def ep0InSample : UsbEndpoint :=
  { address := 0x80, attributes := 0, max_packet_size := 8, interval := 0 }

/-- A sample control endpoint (OUT). -/
def ep0OutSample : UsbEndpoint :=
  { address := 0x00, attributes := 0, max_packet_size := 8, interval := 0 }

/-- A sample device with bus-id "0-0-0" (the busid the integration tests
use). -/
def devA : UsbDevice :=
  { path := [], bus_id := [48, 45, 48, 45, 48], bus_num := 0, dev_num := 0,
    speed := 0, vendor_id := 0, product_id := 0, device_class := 0,
    device_subclass := 0, device_protocol := 0, device_bcd := 0,
    usb_version := 0, configuration_value := 0, num_configurations := 1,
    ep0_in := ep0InSample, ep0_out := ep0OutSample, interfaces := [] }

/-- A sample device with bus-id "1-1-1". -/
def devB : UsbDevice := { devA with bus_id := [49, 45, 49, 45, 49] }

/-- A registry holding `devA` available. -/
def regSample : ServerState := new_simulated [devA]

/-- A registry with `devB` available and `devA` imported. -/
def regUsed : ServerState :=
  { available := [devB], used := [([48, 45, 48, 45, 48], devA)] }

/-- A sample URB handler that always stalls. -/
def urbSample : UrbHandler := fun _ _ _ _ _ _ => .error ()

/-- A sample URB handler that echoes two bytes. -/
def urbSampleOk : UrbHandler := fun _ _ _ _ _ _ => .ok [1, 2]

/-- The 32-byte OP_REQ_IMPORT busid field for "0-0-0" (NUL-padded). -/
def busidReqA : List Nat := [48, 45, 48, 45, 48] ++ List.replicate 27 0

/-- A sample one-session system over `regSample`. -/
def sysSample : Sys := { reg := regSample, sessions := [none] }

/-! ## Helper lemmas: lists and association lists -/

theorem list_set_of_getElem? {α : Type} (l : List α) (i : Nat) (a : α)
    (h : l[i]? = some a) : l.set i a = l := by
  induction l generalizing i with
  | nil => simp at h
  | cons x xs ih =>
    cases i with
    | zero => simp at h; simp [h]
    | succ n => simp at h ⊢; exact ih n h

theorem hmGet_eq_none_iff (m : UsedMap) (k : BusId) :
    hmGet m k = none ↔ k ∉ m.map (fun p => p.1) := by
  induction m with
  | nil => simp [hmGet]
  | cons p rest ih =>
    simp only [hmGet, List.map_cons, List.mem_cons, not_or]
    by_cases h : p.1 = k
    · subst h; simp
    · simp only [if_neg h, ih]
      constructor
      · intro hk; exact ⟨fun he => h he.symm, hk⟩
      · intro hk; exact hk.2

theorem hmGet_mem {m : UsedMap} {k : BusId} {v : UsbDevice}
    (h : hmGet m k = some v) : (k, v) ∈ m := by
  induction m with
  | nil => simp [hmGet] at h
  | cons p rest ih =>
    by_cases hp : p.1 = k
    · simp [hmGet, hp] at h
      subst hp h
      simp
    · simp [hmGet, hp] at h
      exact List.mem_cons_of_mem _ (ih h)

theorem hmErase_spec {m : UsedMap} {k : BusId} {v : UsbDevice}
    (h : hmGet m k = some v) :
    ∃ pre post, m = pre ++ (k, v) :: post ∧ (∀ p ∈ pre, p.1 ≠ k) ∧
      hmErase m k = pre ++ post := by
  induction m with
  | nil => simp [hmGet] at h
  | cons p rest ih =>
    by_cases hp : p.1 = k
    · simp [hmGet, hp] at h
      refine ⟨[], rest, ?_, by simp, ?_⟩
      · subst hp h; simp
      · simp [hmErase, hp]
    · simp [hmGet, hp] at h
      obtain ⟨pre, post, hm, hpre, he⟩ := ih h
      exact ⟨p :: pre, post, by simp [hm], by simpa [hp] using hpre,
        by simp [hmErase, hp, he]⟩

theorem hmErase_of_not_mem {m : UsedMap} {k : BusId}
    (h : k ∉ m.map (fun p => p.1)) : hmErase m k = m := by
  induction m with
  | nil => simp [hmErase]
  | cons p rest ih =>
    rw [List.map_cons, List.mem_cons, not_or] at h
    have hp : ¬ p.1 = k := fun he => h.1 he.symm
    simp only [hmErase, if_neg hp]
    rw [ih h.2]

theorem mem_keys_hmErase {m : UsedMap} {b k : BusId}
    (hb : b ∈ m.map (fun p => p.1)) (hne : b ≠ k) :
    b ∈ (hmErase m k).map (fun p => p.1) := by
  induction m with
  | nil => simp at hb
  | cons p rest ih =>
    rw [List.map_cons, List.mem_cons] at hb
    by_cases hp : p.1 = k
    · rcases hb with hb | hb
      · exact absurd (hb.trans hp) hne
      · simp only [hmErase, if_pos hp]
        exact hb
    · rcases hb with hb | hb
      · simp only [hmErase, if_neg hp, List.map_cons, List.mem_cons]
        exact Or.inl hb
      · simp only [hmErase, if_neg hp, List.map_cons, List.mem_cons]
        exact Or.inr (ih hb)

theorem hmGet_hmErase_self {m : UsedMap} {k : BusId}
    (h : (m.map (fun p => p.1)).Nodup) : hmGet (hmErase m k) k = none := by
  induction m with
  | nil => simp [hmErase, hmGet]
  | cons p rest ih =>
    rw [List.map_cons, List.nodup_cons] at h
    by_cases hp : p.1 = k
    · simp only [hmErase, if_pos hp]
      rw [hmGet_eq_none_iff]
      subst hp
      exact h.1
    · simp only [hmErase, if_neg hp, hmGet]
      exact ih h.2

/-! ## Helper lemmas: the ordered scans of the import and remove loops -/

theorem importFrom_eq_some {t : BusId} {l l' : List UsbDevice} {d : UsbDevice}
    (h : importFrom t l = some (l', d)) :
    ∃ pre post, l = pre ++ d :: post ∧ l' = pre ++ post ∧ t = d.bus_id ∧
      ∀ x ∈ pre, t ≠ x.bus_id := by
  induction l generalizing l' with
  | nil => simp [importFrom] at h
  | cons x rest ih =>
    by_cases hx : t = x.bus_id
    · simp [importFrom, hx] at h
      exact ⟨[], rest, by simp [h.2], by simp [h.1], by simp [hx, h.2], by simp⟩
    · simp [importFrom, hx] at h
      obtain ⟨p, hp, hl'⟩ := h
      obtain ⟨pre, post, h1, h2, h3, h4⟩ := ih hp
      refine ⟨x :: pre, post, by simp [h1], ?_, h3, ?_⟩
      · simp [← hl', h2]
      · simpa [hx] using h4

theorem importFrom_eq_none_iff (t : BusId) (l : List UsbDevice) :
    importFrom t l = none ↔ ∀ x ∈ l, t ≠ x.bus_id := by
  induction l with
  | nil => simp [importFrom]
  | cons x rest ih =>
    by_cases hx : t = x.bus_id <;> simp [importFrom, hx, ih]

theorem importFrom_first_match {t : BusId} {pre post : List UsbDevice}
    {d : UsbDevice} (hpre : ∀ x ∈ pre, t ≠ x.bus_id) (hd : t = d.bus_id) :
    importFrom t (pre ++ d :: post) = some (pre ++ post, d) := by
  induction pre with
  | nil => simp [importFrom, hd]
  | cons x rest ih =>
    have hx : t ≠ x.bus_id := hpre x (by simp)
    simp only [List.cons_append, importFrom, if_neg hx, List.append_eq]
    rw [ih (fun y hy => hpre y (List.mem_cons_of_mem _ hy))]
    rfl

theorem removeFrom_eq_some {bid : BusId} {l l' : List UsbDevice}
    (h : removeFrom bid l = some l') :
    ∃ pre d post, l = pre ++ d :: post ∧ l' = pre ++ post ∧ d.bus_id = bid ∧
      ∀ x ∈ pre, x.bus_id ≠ bid := by
  induction l generalizing l' with
  | nil => simp [removeFrom] at h
  | cons x rest ih =>
    by_cases hx : x.bus_id = bid
    · simp [removeFrom, hx] at h
      exact ⟨[], x, rest, rfl, by simp [h], hx, by simp⟩
    · simp [removeFrom, hx] at h
      obtain ⟨m, hm, hl'⟩ := h
      obtain ⟨pre, d, post, h1, h2, h3, h4⟩ := ih hm
      refine ⟨x :: pre, d, post, by simp [h1], by simp [← hl', h2], h3, ?_⟩
      simpa [hx] using h4

theorem removeFrom_eq_none_iff (bid : BusId) (l : List UsbDevice) :
    removeFrom bid l = none ↔ ∀ x ∈ l, x.bus_id ≠ bid := by
  induction l with
  | nil => simp [removeFrom]
  | cons x rest ih =>
    by_cases hx : x.bus_id = bid <;> simp [removeFrom, hx, ih]

/-! ## Helper lemmas: registry invariant preservation -/

theorem availIds_mk (a : List UsbDevice) (u : UsedMap) :
    availIds { available := a, used := u } = a.map (fun d => d.bus_id) := rfl

theorem usedKeys_mk (a : List UsbDevice) (u : UsedMap) :
    usedKeys { available := a, used := u } = u.map (fun p => p.1) := rfl

theorem regInv_add {s : ServerState} {d : UsbDevice} (h : RegInv s)
    (hfresh : d.bus_id ∉ busIds s) : RegInv (add_device s d) := by
  obtain ⟨hnd, hkv⟩ := h
  constructor
  · have he : busIds (add_device s d) =
        availIds s ++ [d.bus_id] ++ usedKeys s := by
      simp [busIds, availIds, usedKeys, add_device]
    rw [he, List.append_assoc, List.singleton_append]
    refine List.perm_middle.symm.nodup ?_
    rw [List.nodup_cons]
    exact ⟨by simpa [busIds] using hfresh, hnd⟩
  · exact hkv

theorem op_req_import_cases (s : ServerState) (busid : List Nat) :
    (op_req_import s busid = (s, none, op_rep_import_fail) ∧
      ∀ x ∈ s.available, truncBusid busid ≠ x.bus_id) ∨
    (∃ pre d post, s.available = pre ++ d :: post ∧
      (∀ x ∈ pre, truncBusid busid ≠ x.bus_id) ∧
      truncBusid busid = d.bus_id ∧
      op_req_import s busid =
        ({ available := pre ++ post, used := hmInsert s.used d.bus_id d },
          some d.bus_id, op_rep_import_success d)) := by
  rcases himp : importFrom (truncBusid busid) s.available with _ | ⟨l', d⟩
  · left
    refine ⟨?_, (importFrom_eq_none_iff _ _).mp himp⟩
    simp [op_req_import, himp]
  · right
    obtain ⟨pre, post, h1, h2, h3, h4⟩ := importFrom_eq_some himp
    exact ⟨pre, d, post, h1, h4, h3, by simp [op_req_import, himp, h2]⟩

theorem regInv_import {s : ServerState} (busid : List Nat) (h : RegInv s) :
    RegInv (op_req_import s busid).1 ∧
      List.Perm (busIds (op_req_import s busid).1) (busIds s) := by
  obtain ⟨hnd, hkv⟩ := h
  rcases op_req_import_cases s busid with ⟨heq, _⟩ | ⟨pre, d, post, h1, _, _, heq⟩
  · rw [heq]
    exact ⟨⟨hnd, hkv⟩, List.Perm.refl _⟩
  · rw [heq]
    have hids : busIds s =
        (pre.map (fun x => x.bus_id) ++ d.bus_id :: post.map (fun x => x.bus_id)) ++
          s.used.map (fun p => p.1) := by
      simp [busIds, availIds, usedKeys, h1]
    have hnd' : ((pre.map (fun x => x.bus_id) ++
        d.bus_id :: post.map (fun x => x.bus_id)) ++
          s.used.map (fun p => p.1)).Nodup := hids ▸ hnd
    have hdisj : d.bus_id ∉ s.used.map (fun p => p.1) :=
      List.disjoint_of_nodup_append hnd' (by simp)
    have herase : hmErase s.used d.bus_id = s.used := hmErase_of_not_mem hdisj
    have hperm : List.Perm
        (busIds { available := pre ++ post,
                  used := hmInsert s.used d.bus_id d })
        (busIds s) := by
      rw [hids]
      simp only [busIds, availIds_mk, usedKeys_mk, hmInsert, herase,
        List.map_append, List.map_cons]
      exact List.perm_middle.trans (List.perm_middle.append_right _).symm
    refine ⟨⟨hperm.symm.nodup hnd, ?_⟩, hperm⟩
    intro p hp
    simp only [hmInsert, herase] at hp
    rcases List.mem_cons.mp hp with hp | hp
    · rw [hp]
    · exact hkv p hp

theorem releaseDevice_eq {s : ServerState} {b : BusId} {dev : UsbDevice}
    (hget : hmGet s.used b = some dev) :
    releaseDevice s b =
      some { available := s.available ++ [dev], used := hmErase s.used b } := by
  simp [releaseDevice, hget]

theorem regInv_release {s : ServerState} {b : BusId} {dev : UsbDevice}
    (h : RegInv s) (hget : hmGet s.used b = some dev) :
    RegInv { available := s.available ++ [dev], used := hmErase s.used b } ∧
      List.Perm
        (busIds { available := s.available ++ [dev], used := hmErase s.used b })
        (busIds s) ∧
      b ∈ availIds { available := s.available ++ [dev], used := hmErase s.used b } ∧
      b ∉ usedKeys { available := s.available ++ [dev], used := hmErase s.used b } := by
  obtain ⟨hnd, hkv⟩ := h
  have hb : dev.bus_id = b := hkv (b, dev) (hmGet_mem hget)
  obtain ⟨pre, post, hm, hpre, he⟩ := hmErase_spec hget
  have hkeys : s.used.map (fun p => p.1) =
      pre.map (fun p => p.1) ++ b :: post.map (fun p => p.1) := by
    simp [hm]
  have hperm : List.Perm
      (busIds { available := s.available ++ [dev], used := hmErase s.used b })
      (busIds s) := by
    simp only [busIds, availIds_mk, usedKeys_mk, availIds, usedKeys, he,
      List.map_append, List.map_cons, List.map_nil, hkeys, hb]
    rw [List.append_assoc, List.singleton_append]
    exact (List.perm_middle.symm).append_left _
  have hnodupkeys : (s.used.map (fun p => p.1)).Nodup := by
    have hnd2 : (availIds s ++ usedKeys s).Nodup := hnd
    exact (List.nodup_append.mp hnd2).2.1
  refine ⟨⟨hperm.symm.nodup hnd, ?_⟩, hperm, ?_, ?_⟩
  · intro p hp
    rw [he] at hp
    rcases List.mem_append.mp hp with hp | hp
    · exact hkv p (by rw [hm]; exact List.mem_append_left _ hp)
    · exact hkv p (by rw [hm]; exact List.mem_append_right _ (List.mem_cons_of_mem _ hp))
  · simp [availIds_mk, hb]
  · rw [usedKeys_mk, ← hmGet_eq_none_iff]
    exact hmGet_hmErase_self hnodupkeys

theorem remove_device_cases (s : ServerState) (bid : BusId) :
    (∃ pre d post, s.available = pre ++ d :: post ∧
      (∀ x ∈ pre, x.bus_id ≠ bid) ∧ d.bus_id = bid ∧
      remove_device s bid = ({ s with available := pre ++ post }, .ok ())) ∨
    ((∀ x ∈ s.available, x.bus_id ≠ bid) ∧
      (∃ p ∈ s.used, p.2.bus_id = bid) ∧
      remove_device s bid = (s, .error .inUse)) ∨
    ((∀ x ∈ s.available, x.bus_id ≠ bid) ∧
      (∀ p ∈ s.used, p.2.bus_id ≠ bid) ∧
      remove_device s bid = (s, .error .notFound)) := by
  rcases hrm : removeFrom bid s.available with _ | l'
  · have hall := (removeFrom_eq_none_iff bid s.available).mp hrm
    rcases hf : (s.used.map (fun p => p.2)).find? (fun d => d.bus_id == bid)
      with _ | d
    · refine Or.inr (Or.inr ⟨hall, ?_, by simp [remove_device, hrm, hf]⟩)
      intro p hp
      have := List.find?_eq_none.mp hf p.2 (List.mem_map_of_mem _ hp)
      simpa using this
    · refine Or.inr (Or.inl ⟨hall, ?_, by simp [remove_device, hrm, hf]⟩)
      have hpd := List.find?_some hf
      have hmem := List.mem_of_find?_eq_some hf
      rcases List.mem_map.mp hmem with ⟨p, hp, hpd2⟩
      exact ⟨p, hp, by rw [hpd2]; simpa using hpd⟩
  · obtain ⟨pre, d, post, h1, h2, h3, h4⟩ := removeFrom_eq_some hrm
    exact Or.inl ⟨pre, d, post, h1, h4, h3,
      by simp [remove_device, hrm, h2]⟩

theorem regInv_remove {s : ServerState} (bid : BusId) (h : RegInv s) :
    RegInv (remove_device s bid).1 ∧
      (remove_device s bid).1.used = s.used ∧
      List.Sublist (remove_device s bid).1.available s.available := by
  obtain ⟨hnd, hkv⟩ := h
  rcases remove_device_cases s bid with
    ⟨pre, d, post, h1, _, _, heq⟩ | ⟨_, _, heq⟩ | ⟨_, _, heq⟩
  · rw [heq]
    have hsub : List.Sublist (pre ++ post) s.available := by
      rw [h1]
      exact List.Sublist.append (List.Sublist.refl pre) (List.sublist_cons_self d post)
    refine ⟨⟨?_, hkv⟩, rfl, hsub⟩
    have hsubIds : List.Sublist
        (busIds { s with available := pre ++ post }) (busIds s) := by
      simp only [busIds, availIds, usedKeys]
      exact List.Sublist.append (hsub.map _) (List.Sublist.refl _)
    exact hsubIds.nodup hnd
  · rw [heq]; exact ⟨⟨hnd, hkv⟩, rfl, List.Sublist.refl _⟩
  · rw [heq]; exact ⟨⟨hnd, hkv⟩, rfl, List.Sublist.refl _⟩

theorem removeFrom_first_match {bid : BusId} {pre post : List UsbDevice}
    {d : UsbDevice} (hpre : ∀ x ∈ pre, x.bus_id ≠ bid) (hd : d.bus_id = bid) :
    removeFrom bid (pre ++ d :: post) = some (pre ++ post) := by
  induction pre with
  | nil => simp [removeFrom, hd]
  | cons x rest ih =>
    have hx : x.bus_id ≠ bid := hpre x (by simp)
    simp only [List.cons_append, removeFrom, if_neg hx, List.append_eq]
    rw [ih (fun y hy => hpre y (List.mem_cons_of_mem _ hy))]
    rfl

theorem findIdx?_first_zero (b tail : List Nat) (hb : ∀ x ∈ b, x ≠ 0) :
    List.findIdx? (fun y => y == 0) (b ++ 0 :: tail) = some b.length := by
  induction b with
  | nil => simp [List.findIdx?_cons]
  | cons x rest ih =>
    have hx : (x == 0) = false := by simpa using hb x (by simp)
    rw [List.cons_append, List.findIdx?_cons, if_neg (by simp [hx]),
      List.findIdx?_succ, ih (fun y hy => hb y (by simp [hy]))]
    rfl

theorem findIdx?_no_zero (b : List Nat) (hb : ∀ x ∈ b, x ≠ 0) :
    List.findIdx? (fun y => y == 0) b = none := by
  induction b with
  | nil => rfl
  | cons x rest ih =>
    have hx : (x == 0) = false := by simpa using hb x (by simp)
    rw [List.findIdx?_cons, if_neg (by simp [hx]), List.findIdx?_succ,
      ih (fun y hy => hb y (by simp [hy]))]
    rfl

theorem truncBusid_padded (b tail : List Nat) (hb : ∀ x ∈ b, x ≠ 0) :
    truncBusid (b ++ 0 :: tail) = b := by
  unfold truncBusid
  rw [findIdx?_first_zero b tail hb]
  exact List.take_left b (0 :: tail)

theorem truncBusid_no_nul (b : List Nat) (hb : ∀ x ∈ b, x ≠ 0) :
    truncBusid b = b := by
  unfold truncBusid
  rw [findIdx?_no_zero b hb]
  exact List.take_length b

/-! ## Helper lemmas: the descriptor walk -/

theorem walkIter_absorb (desc : List Nat) (n off : Nat)
    (h : desc.length ≤ off) : walkIter desc n off = off := by
  induction n with
  | zero => rfl
  | succ m ih => simp [walkIter, Nat.not_lt.mpr h]

theorem walkIter_succ_unfold (desc : List Nat) (n off : Nat) :
    walkIter desc (n + 1) off =
      if off < desc.length then walkIter desc n (off + desc.getD off 0)
      else off := rfl

theorem walkIter_add (desc : List Nat) (m n off : Nat) :
    walkIter desc (m + n) off = walkIter desc m (walkIter desc n off) := by
  induction n generalizing off with
  | zero => rfl
  | succ k ih =>
    rw [show m + (k + 1) = (m + k) + 1 by omega, walkIter_succ_unfold,
      walkIter_succ_unfold]
    by_cases hoff : off < desc.length
    · rw [if_pos hoff, if_pos hoff]
      exact ih (off + desc.getD off 0)
    · rw [if_neg hoff, if_neg hoff]
      exact (walkIter_absorb desc m off (Nat.le_of_not_lt hoff)).symm

theorem walkIter_stuck (desc : List Nat) (n off : Nat)
    (hoff : off < desc.length) (hz : desc.getD off 0 = 0) :
    walkIter desc n off = off := by
  induction n with
  | zero => rfl
  | succ m ih =>
    rw [walkIter_succ_unfold, if_pos hoff, hz, Nat.add_zero]
    exact ih

theorem badVisitFrom_step (desc : List Nat) (off : Nat)
    (hoff : off < desc.length)
    (h : BadVisitFrom desc (off + desc.getD off 0)) :
    BadVisitFrom desc off := by
  obtain ⟨n, h1, h2⟩ := h
  refine ⟨n + 1, ?_, ?_⟩
  · rw [walkIter_succ_unfold, if_pos hoff]
    exact h1
  · rw [walkIter_succ_unfold, if_pos hoff]
    exact h2

theorem walkIter_min_le (desc : List Nat) (n off : Nat)
    (h : ¬ BadVisitFrom desc off) :
    min (off + n) desc.length ≤ walkIter desc n off := by
  induction n generalizing off with
  | zero =>
    show min (off + 0) desc.length ≤ off
    omega
  | succ k ih =>
    rw [walkIter_succ_unfold]
    by_cases hoff : off < desc.length
    · have hz : desc.getD off 0 ≠ 0 := fun hz0 =>
        h ⟨0, show walkIter desc 0 off < desc.length from hoff,
          show desc.getD (walkIter desc 0 off) 0 = 0 from hz0⟩
      have hnb : ¬ BadVisitFrom desc (off + desc.getD off 0) :=
        fun hb => h (badVisitFrom_step desc off hoff hb)
      have hih := ih (off + desc.getD off 0) hnb
      rw [if_pos hoff]
      have hz1 : 1 ≤ desc.getD off 0 := Nat.one_le_iff_ne_zero.mpr hz
      have hmin : min (off + (k + 1)) desc.length ≤
          min (off + desc.getD off 0 + k) desc.length := by omega
      exact le_trans hmin hih
    · rw [if_neg hoff]
      omega

theorem walkIter_lt_of_bad (desc : List Nat) (h : BadVisit desc) :
    ∀ m : Nat, walkIter desc m 0 < desc.length := by
  obtain ⟨n, hlt, hz⟩ := h
  intro m
  rcases Nat.le_total m n with hmn | hnm
  · by_contra hge
    have hge2 : desc.length ≤ walkIter desc m 0 := Nat.le_of_not_lt hge
    have : walkIter desc n 0 = walkIter desc m 0 := by
      rw [show n = (n - m) + m by omega, walkIter_add]
      exact walkIter_absorb desc (n - m) _ hge2
    rw [this] at hlt
    omega
  · have : walkIter desc m 0 = walkIter desc n 0 := by
      rw [show m = (m - n) + n by omega, walkIter_add]
      exact walkIter_stuck desc (m - n) _ hlt hz
    rw [this]
    exact hlt

/-! ## Helper lemmas: the multi-session system -/

theorem getElem?_some_lt {α : Type} {l : List α} {i : Nat} {a : α}
    (h : l[i]? = some a) : i < l.length := by
  by_contra hge
  rw [List.getElem?_eq_none (Nat.le_of_not_lt hge)] at h
  exact Option.noConfusion h

theorem spawn_getElem {l : List (Option BusId)} {i : Nat} {b : BusId}
    (h : (l ++ [none])[i]? = some (some b)) : l[i]? = some (some b) := by
  by_cases hl : i < l.length
  · rw [List.getElem?_append_left hl] at h
    exact h
  · have hlen : i < l.length + 1 := by simpa using getElem?_some_lt h
    have hi : i = l.length := by omega
    subst hi
    rw [List.getElem?_append_right (le_refl _)] at h
    simp at h

theorem handlerStep_submit_eq (urb : UrbHandler) (reg : ServerState)
    (b : BusId) (device : UsbDevice) (header : UsbIpHeaderBasic)
    (tflags : Nat) (tbl : Int) (sf np iv : Nat) (setup data iso : List Nat)
    (hg : hmGet reg.used b = some device) :
    ∃ rep : UsbIpResponse,
      handlerStep urb reg (some b)
        (.ok (.usbIpCmdSubmit header tflags tbl sf np iv setup data iso)) =
        some ⟨reg, some b, some rep, .next⟩ := by
  rcases hfe : find_ep device
      ((if header.direction = 0 then header.ep else header.ep ||| 0x80) % 256)
    with _ | ⟨e, i⟩
  · exact ⟨usbip_ret_submit_fail { header with command := USBIP_RET_SUBMIT },
      by simp [handlerStep, hg, hfe]⟩
  · rcases hu : urb device e i tbl setup data with u | resp
    · exact ⟨usbip_ret_submit_fail { header with command := USBIP_RET_SUBMIT },
        by simp [handlerStep, hg, hfe, hu]⟩
    · exact ⟨usbip_ret_submit_success
          { header with command := USBIP_RET_SUBMIT } resp,
        by simp [handlerStep, hg, hfe, hu]⟩

theorem handlerStep_facts (urb : UrbHandler) {reg : ServerState}
    {bound : Option BusId} {input : Except ErrKind UsbIpCommand}
    {out : StepOut} (hreg : RegInv reg)
    (hbound : ∀ b : BusId, bound = some b → b ∈ usedKeys reg)
    (h : handlerStep urb reg bound input = some out) :
    RegInv out.reg ∧
    (∀ b : BusId, out.bound = some b → b ∈ usedKeys out.reg) ∧
    (∀ b : BusId, b ∈ usedKeys reg → bound ≠ some b → b ∈ usedKeys out.reg) ∧
    (∀ b : BusId, out.bound = some b → bound = some b ∨ b ∉ usedKeys reg) := by
  rcases input with kind | cmd
  · -- PDU read failure
    rcases bound with _ | b
    · rcases kind <;>
        (injection h with h; subst h;
          exact ⟨hreg, fun b hb => Option.noConfusion hb, fun b hb _ => hb,
            fun b hb => Option.noConfusion hb⟩)
    · have hbk : b ∈ usedKeys reg := hbound b rfl
      rcases hg : hmGet reg.used b with _ | dev
      · exact absurd hbk (by
          have := (hmGet_eq_none_iff reg.used b).mp hg
          exact this)
      · have hrel := releaseDevice_eq hg
        obtain ⟨hinv', hperm, hmem, hnot⟩ := regInv_release hreg hg
        rcases kind <;>
          (simp [handlerStep, hrel] at h; subst h;
            refine ⟨hinv', fun b' hb' => Option.noConfusion hb', ?_,
              fun b' hb' => Option.noConfusion hb'⟩;
            intro b' hb' hne;
            exact mem_keys_hmErase hb' (fun he =>
              hne (congrArg some he.symm)))
  · rcases cmd with st | ⟨st, busid⟩ |
      ⟨header, tflags, tbl, sf, np, iv, setup, data, iso⟩ | ⟨header, seqnum⟩
    · -- OP_REQ_DEVLIST
      injection h with h
      subst h
      exact ⟨hreg, hbound, fun b hb _ => hb, fun b hb => Or.inl hb⟩
    · -- OP_REQ_IMPORT
      injection h with h
      subst h
      rcases op_req_import_cases reg busid with ⟨heq, _⟩ |
        ⟨pre, d, post, h1, h2, h3, heq⟩
      · rw [heq]
        exact ⟨hreg, fun b hb => Option.noConfusion hb, fun b hb _ => hb,
          fun b hb => Option.noConfusion hb⟩
      · have hinv' := (regInv_import busid hreg).1
        have hfresh : d.bus_id ∉ usedKeys reg := by
          have hnd2 : (availIds reg ++ usedKeys reg).Nodup := hreg.1
          have hmemav : d.bus_id ∈ availIds reg := by
            rw [availIds, h1]
            simp
          exact List.disjoint_of_nodup_append hnd2 hmemav
        refine ⟨hinv', ?_, ?_, ?_⟩
        · intro b hb
          rw [heq] at hb ⊢
          injection hb with hb
          subst hb
          simp [usedKeys_mk, hmInsert]
        · intro b' hb' _
          rw [heq]
          by_cases hbd : b' = d.bus_id
          · simp [usedKeys_mk, hmInsert, hbd]
          · simp only [usedKeys_mk, hmInsert, List.map_cons, List.mem_cons]
            exact Or.inr (mem_keys_hmErase hb' hbd)
        · intro b hb
          rw [heq] at hb
          injection hb with hb
          subst hb
          exact Or.inr hfresh
    · -- USBIP_CMD_SUBMIT
      rcases bound with _ | b
      · exact Option.noConfusion h
      · rcases hg : hmGet reg.used b with _ | device
        · have : handlerStep urb reg (some b)
              (.ok (.usbIpCmdSubmit header tflags tbl sf np iv setup data iso)) =
              none := by
            simp [handlerStep, hg]
          rw [this] at h
          exact Option.noConfusion h
        · obtain ⟨rep, hstep_eq⟩ :=
            handlerStep_submit_eq urb reg b device header tflags tbl sf np iv
              setup data iso hg
          rw [hstep_eq] at h
          injection h with h
          subst h
          exact ⟨hreg, hbound, fun b' hb' _ => hb', fun b' hb' => Or.inl hb'⟩
    · -- USBIP_CMD_UNLINK
      injection h with h
      subst h
      exact ⟨hreg, hbound, fun b hb _ => hb, fun b hb => Or.inl hb⟩

theorem sysInv_preserved (urb : UrbHandler) {s t : Sys} (hinv : SysInv s)
    (hstep : SysStep urb s t) : SysInv t := by
  obtain ⟨hreg, hbound, huniq⟩ := hinv
  cases hstep with
  | spawn =>
    exact ⟨hreg, fun i b hib => hbound i b (spawn_getElem hib),
      fun i j b hib hjb => huniq i j b (spawn_getElem hib) (spawn_getElem hjb)⟩
  | session i b input out hb hstep =>
    have hilt : i < s.sessions.length := getElem?_some_lt hb
    obtain ⟨hf1, hf2, hf3, hf4⟩ := handlerStep_facts urb hreg
      (fun b' hb' => hbound i b' (by rw [hb, hb'])) hstep
    refine ⟨hf1, ?_, ?_⟩
    · intro j b' hjb'
      by_cases hij : i = j
      · subst hij
        rw [List.getElem?_set_self hilt] at hjb'
        injection hjb' with hjb'
        exact hf2 b' hjb'
      · rw [List.getElem?_set_ne hij] at hjb'
        refine hf3 b' (hbound j b' hjb') ?_
        intro hbb
        exact hij (huniq i j b' (by rw [hb, hbb]) hjb')
    · intro j k b' hj hk
      by_cases hij : i = j <;> by_cases hik : i = k
      · omega
      · subst hij
        rw [List.getElem?_set_self hilt] at hj
        rw [List.getElem?_set_ne hik] at hk
        injection hj with hj
        rcases hf4 b' hj with hcase | hcase
        · exact huniq i k b' (by rw [hb, hcase]) hk
        · exact absurd (hbound k b' hk) hcase
      · subst hik
        rw [List.getElem?_set_self hilt] at hk
        rw [List.getElem?_set_ne hij] at hj
        injection hk with hk
        rcases hf4 b' hk with hcase | hcase
        · exact (huniq i j b' (by rw [hb, hcase]) hj).symm
        · exact absurd (hbound j b' hj) hcase
      · rw [List.getElem?_set_ne hij] at hj
        rw [List.getElem?_set_ne hik] at hk
        exact huniq j k b' hj hk
  | panicked i b input hb hstep =>
    refine ⟨hreg, ?_, ?_⟩
    · intro j b' hjb'
      by_cases hij : i = j
      · subst hij
        rw [List.getElem?_set_self (getElem?_some_lt hb)] at hjb'
        injection hjb' with hjb'
        exact Option.noConfusion hjb'
      · rw [List.getElem?_set_ne hij] at hjb'
        exact hbound j b' hjb'
    · intro j k b' hj hk
      by_cases hij : i = j
      · subst hij
        rw [List.getElem?_set_self (getElem?_some_lt hb)] at hj
        injection hj with hj
        exact Option.noConfusion hj
      · by_cases hik : i = k
        · subst hik
          rw [List.getElem?_set_self (getElem?_some_lt hb)] at hk
          injection hk with hk
          exact Option.noConfusion hk
        · rw [List.getElem?_set_ne hij] at hj
          rw [List.getElem?_set_ne hik] at hk
          exact huniq j k b' hj hk
  | adminAdd d hfresh =>
    refine ⟨regInv_add hreg hfresh, ?_, huniq⟩
    intro i b hib
    exact hbound i b hib
  | adminRemove bid =>
    obtain ⟨hinv', hused, _⟩ := regInv_remove bid hreg
    refine ⟨hinv', ?_, huniq⟩
    intro i b hib
    have hk : usedKeys (remove_device s.reg bid).1 = usedKeys s.reg := by
      rw [usedKeys, hused]
      rfl
    show b ∈ usedKeys (remove_device s.reg bid).1
    rw [hk]
    exact hbound i b hib

theorem sysInv_reach (urb : UrbHandler) {s t : Sys} (hinv : SysInv s)
    (hreach : SysReach urb s t) : SysInv t := by
  induction hreach with
  | refl => exact hinv
  | tail t u hr hstep ih => exact sysInv_preserved urb ih hstep

/-! ## Claim theorems -/

/-- C1: every device added and not removed sits in exactly one of the two
registry collections.  Each registry transaction — `add_device`, the
OP_REQ_IMPORT critical section (`op_req_import`, which removes from
*available* and inserts into *imported* in one atomic step), the session
cleanup (`releaseDevice`, one atomic step back) and `remove_device` (which
only ever drops from *available*) — preserves the partition invariant and
never leaves a device in both collections or in neither: import and release
permute the full bus-id population, removal only shrinks the *available*
side, and under the invariant every known bus-id is in *available* iff it is
not in *imported*. -/
theorem registry_partition (s : ServerState) (hInv : RegInv s) :
    (∀ d : UsbDevice, d.bus_id ∉ busIds s → RegInv (add_device s d)) ∧
    (∀ busid : List Nat,
      RegInv (op_req_import s busid).1 ∧
      List.Perm (busIds (op_req_import s busid).1) (busIds s) ∧
      (∀ d : UsbDevice,
        (op_req_import s busid).2.2 = op_rep_import_success d →
          d ∈ s.available ∧ d.bus_id ∉ availIds (op_req_import s busid).1 ∧
          hmGet (op_req_import s busid).1.used d.bus_id = some d) ∧
      ((op_req_import s busid).2.2 = op_rep_import_fail →
        (op_req_import s busid).1 = s)) ∧
    (∀ (b : BusId) (dev : UsbDevice), hmGet s.used b = some dev →
      releaseDevice s b =
        some { available := s.available ++ [dev], used := hmErase s.used b } ∧
      RegInv { available := s.available ++ [dev], used := hmErase s.used b } ∧
      List.Perm
        (busIds { available := s.available ++ [dev], used := hmErase s.used b })
        (busIds s) ∧
      b ∈ availIds { available := s.available ++ [dev], used := hmErase s.used b } ∧
      b ∉ usedKeys { available := s.available ++ [dev], used := hmErase s.used b }) ∧
    (∀ bid : BusId, RegInv (remove_device s bid).1 ∧
      (remove_device s bid).1.used = s.used ∧
      List.Sublist (remove_device s bid).1.available s.available) ∧
    (∀ b : BusId, b ∈ busIds s → (b ∈ availIds s ↔ b ∉ usedKeys s)) := by
  refine ⟨fun d hf => regInv_add hInv hf, fun busid => ?_,
    fun b dev hget => ⟨releaseDevice_eq hget, (regInv_release hInv hget).1,
      (regInv_release hInv hget).2.1, (regInv_release hInv hget).2.2.1,
      (regInv_release hInv hget).2.2.2⟩,
    fun bid => regInv_remove bid hInv, ?_⟩
  · obtain ⟨hi1, hi2⟩ := regInv_import busid hInv
    refine ⟨hi1, hi2, ?_, ?_⟩
    · intro d hrep
      rcases op_req_import_cases s busid with ⟨heq, _⟩ |
        ⟨pre, d', post, h1, h2, h3, heq⟩
      · rw [heq] at hrep
        simp [op_rep_import_fail, op_rep_import_success] at hrep
      · rw [heq] at hrep
        simp only [op_rep_import_success, UsbIpResponse.opRepImportSuccess.injEq]
          at hrep
        subst hrep
        refine ⟨by rw [h1]; exact List.mem_append_right _ (List.mem_cons_self _ _),
          ?_, by rw [heq]; simp [hmInsert, hmGet]⟩
        rw [heq]
        have hav : (availIds s).Nodup := by
          have hnd2 : (availIds s ++ usedKeys s).Nodup := hInv.1
          exact (List.nodup_append.mp hnd2).1
        have hav2 : (pre.map (fun x => x.bus_id) ++
            d'.bus_id :: post.map (fun x => x.bus_id)).Nodup := by
          rw [availIds, h1] at hav
          simpa using hav
        have hmid := List.perm_middle.nodup hav2
        rw [List.nodup_cons] at hmid
        simpa [availIds_mk, List.map_append] using hmid.1
    · intro hrep
      rcases op_req_import_cases s busid with ⟨heq, _⟩ |
        ⟨pre, d', post, h1, h2, h3, heq⟩
      · rw [heq]
      · rw [heq] at hrep
        simp [op_rep_import_fail, op_rep_import_success] at hrep
  · intro b hb
    have hnd2 : (availIds s ++ usedKeys s).Nodup := hInv.1
    have hb2 : b ∈ availIds s ++ usedKeys s := hb
    constructor
    · intro hav hused
      exact List.disjoint_of_nodup_append hnd2 hav hused
    · intro hused
      rcases List.mem_append.mp hb2 with hav | hu
      · exact hav
      · exact absurd hu hused

/-- Witness for C1 at a concrete registry: adding a fresh device to the
one-device sample registry preserves the invariant. -/
theorem registry_partition_witness : RegInv (add_device regSample devB) :=
  (registry_partition regSample (by decide)).1 devB (by decide)

/-- C7: `remove_device` drops the device and returns `Ok(())` when the bus-id
is in *available*; fails with the "in use" error leaving both collections
unchanged when the bus-id is on an imported device; and fails with `NotFound`
leaving both collections unchanged when the bus-id is nowhere. -/
theorem remove_device_trichotomy (s : ServerState) (bid : BusId) :
    (∀ pre d post, s.available = pre ++ d :: post →
      (∀ x ∈ pre, x.bus_id ≠ bid) → d.bus_id = bid →
      remove_device s bid = ({ s with available := pre ++ post }, .ok ())) ∧
    ((∀ x ∈ s.available, x.bus_id ≠ bid) →
      (∃ p ∈ s.used, p.2.bus_id = bid) →
      remove_device s bid = (s, .error .inUse)) ∧
    ((∀ x ∈ s.available, x.bus_id ≠ bid) →
      (∀ p ∈ s.used, p.2.bus_id ≠ bid) →
      remove_device s bid = (s, .error .notFound)) := by
  refine ⟨?_, ?_, ?_⟩
  · intro pre d post h1 h2 h3
    have hfm := @removeFrom_first_match bid pre post d h2 h3
    simp [remove_device, h1, hfm]
  · intro hall ⟨p, hp, hpb⟩
    have hrm : removeFrom bid s.available = none :=
      (removeFrom_eq_none_iff bid s.available).mpr hall
    rcases hf : (s.used.map (fun p => p.2)).find? (fun d => d.bus_id == bid)
      with _ | d
    · exact absurd (by simpa using
        List.find?_eq_none.mp hf p.2 (List.mem_map_of_mem _ hp)) (by simpa using hpb)
    · simp [remove_device, hrm, hf]
  · intro hall hnone
    have hrm : removeFrom bid s.available = none :=
      (removeFrom_eq_none_iff bid s.available).mpr hall
    rcases hf : (s.used.map (fun p => p.2)).find? (fun d => d.bus_id == bid)
      with _ | d
    · simp [remove_device, hrm, hf]
    · have hpd := List.find?_some hf
      have hmem := List.mem_of_find?_eq_some hf
      rcases List.mem_map.mp hmem with ⟨p, hp, hpd2⟩
      exact absurd (by rw [hpd2]; simpa using hpd) (hnone p hp)

/-- Witness for C7: removing the imported "0-0-0" from the sample registry
fails with the in-use error and leaves the registry unchanged. -/
theorem remove_device_trichotomy_witness :
    remove_device regUsed [48, 45, 48, 45, 48] = (regUsed, .error .inUse) :=
  (remove_device_trichotomy regUsed [48, 45, 48, 45, 48]).2.1 (by decide)
    ⟨([48, 45, 48, 45, 48], devA), by decide, by decide⟩

/-- C3: when the PDU read fails, a session holding a bound bus-id moves the
device stored under that bus-id from *imported* back onto *available* in the
same step and then returns `Ok(())` exactly when the failure is
`UnexpectedEof`, and the error itself otherwise; an unbound session leaves
the registry untouched and returns the same way. -/
theorem read_error_cleanup (urb : UrbHandler) (reg : ServerState)
    (kind : ErrKind) :
    (∀ (b : BusId) (dev : UsbDevice), hmGet reg.used b = some dev →
      (usedKeys reg).Nodup →
      handlerStep urb reg (some b) (.error kind) =
        some ⟨{ available := reg.available ++ [dev], used := hmErase reg.used b },
          none, none,
          if kind = .unexpectedEof then .retOk else .retErr kind⟩ ∧
      hmGet (hmErase reg.used b) b = none) ∧
    (handlerStep urb reg none (.error kind) =
      some ⟨reg, none, none,
        if kind = .unexpectedEof then .retOk else .retErr kind⟩) := by
  constructor
  · intro b dev hget hnd
    have hrel := releaseDevice_eq hget
    constructor
    · by_cases hk : kind = .unexpectedEof <;> simp [handlerStep, hrel, hk]
    · exact hmGet_hmErase_self hnd
  · by_cases hk : kind = .unexpectedEof <;> simp [handlerStep, hk]

/-- Witness for C3: a clean EOF on the session holding "0-0-0" pushes `devA`
back to *available*, erases its *imported* entry and ends with `Ok(())`. -/
theorem read_error_cleanup_witness :
    (handlerStep urbSample regUsed (some [48, 45, 48, 45, 48])
        (.error .unexpectedEof) =
      some ⟨{ available := regUsed.available ++ [devA],
              used := hmErase regUsed.used [48, 45, 48, 45, 48] },
        none, none,
        if ErrKind.unexpectedEof = ErrKind.unexpectedEof then .retOk
        else .retErr .unexpectedEof⟩ ∧
      hmGet (hmErase regUsed.used [48, 45, 48, 45, 48]) [48, 45, 48, 45, 48] =
        none) :=
  (read_error_cleanup urbSample regUsed .unexpectedEof).1
    [48, 45, 48, 45, 48] devA (by decide) (by decide)

/-- C4: OP_REQ_IMPORT in Greeting truncates the 32-byte busid at its first
NUL (`truncBusid_padded` / `truncBusid_no_nul` spell the truncation out),
compares it against *available* in order, atomically moves the first match
into *imported* keyed by its bus-id, records the binding, and replies success
with that device; with no match it replies failure, changes neither
collection and leaves the session unbound (Greeting). -/
theorem op_req_import_semantics (urb : UrbHandler) (reg : ServerState)
    (st : Nat) (busid : List Nat) :
    (∀ pre d post, reg.available = pre ++ d :: post →
      (∀ x ∈ pre, truncBusid busid ≠ x.bus_id) →
      truncBusid busid = d.bus_id →
      handlerStep urb reg none (.ok (.opReqImport st busid)) =
        some ⟨{ available := pre ++ post, used := hmInsert reg.used d.bus_id d },
          some d.bus_id, some (op_rep_import_success d), .next⟩) ∧
    ((∀ x ∈ reg.available, truncBusid busid ≠ x.bus_id) →
      handlerStep urb reg none (.ok (.opReqImport st busid)) =
        some ⟨reg, none, some op_rep_import_fail, .next⟩) := by
  constructor
  · intro pre d post h1 h2 h3
    have himp := @importFrom_first_match (truncBusid busid) pre post d h2 h3
    simp [handlerStep, op_req_import, h1, himp]
  · intro hall
    have himp := (importFrom_eq_none_iff (truncBusid busid) reg.available).mpr hall
    simp [handlerStep, op_req_import, himp]

/-- Witness for C4: importing the NUL-padded busid "0-0-0" from the sample
registry moves `devA` into *imported*, binds it and replies success. -/
theorem op_req_import_semantics_witness :
    handlerStep urbSample regSample none (.ok (.opReqImport 0 busidReqA)) =
      some ⟨{ available := [] ++ [],
              used := hmInsert regSample.used devA.bus_id devA },
        some devA.bus_id, some (op_rep_import_success devA), .next⟩ :=
  (op_req_import_semantics urbSample regSample 0 busidReqA).1 [] devA []
    (by decide) (by decide) (by decide)

/-- C5: in Attached, each USBIP_CMD_SUBMIT yields exactly one RET_SUBMIT and
the loop reads on: the effective endpoint address is `ep` for OUT
(direction 0) and `ep OR 0x80` for IN, taken as a `u8`; an unknown address
stalls with status -1 and zero actual length; a successful handler gives
status 0 with `actual_length` the response length; a handler error stalls
with status -1 and zero actual length. -/
theorem cmd_submit_semantics (urb : UrbHandler) (reg : ServerState)
    (b : BusId) (device : UsbDevice) (header : UsbIpHeaderBasic)
    (tflags : Nat) (tbl : Int) (sf np iv : Nat) (setup data iso : List Nat)
    (hget : hmGet reg.used b = some device) :
    ∃ rep : UsbIpResponse,
      handlerStep urb reg (some b)
        (.ok (.usbIpCmdSubmit header tflags tbl sf np iv setup data iso)) =
        some ⟨reg, some b, some rep, .next⟩ ∧
      (find_ep device
          ((if header.direction = 0 then header.ep else header.ep ||| 0x80) % 256) =
            none →
        rep = .usbipRetSubmit { header with command := USBIP_RET_SUBMIT } (-1) 0 []) ∧
      (∀ e i resp,
        find_ep device
          ((if header.direction = 0 then header.ep else header.ep ||| 0x80) % 256) =
            some (e, i) →
        urb device e i tbl setup data = .ok resp →
        rep = .usbipRetSubmit { header with command := USBIP_RET_SUBMIT } 0
          resp.length resp) ∧
      (∀ e i,
        find_ep device
          ((if header.direction = 0 then header.ep else header.ep ||| 0x80) % 256) =
            some (e, i) →
        urb device e i tbl setup data = .error () →
        rep = .usbipRetSubmit { header with command := USBIP_RET_SUBMIT } (-1) 0 []) := by
  rcases hfe : find_ep device
      ((if header.direction = 0 then header.ep else header.ep ||| 0x80) % 256)
    with _ | ⟨e, i⟩
  · refine ⟨usbip_ret_submit_fail { header with command := USBIP_RET_SUBMIT },
      ?_, ?_, ?_, ?_⟩
    · simp [handlerStep, hget, hfe]
    · intro _; rfl
    · intro e i resp hsome _; exact Option.noConfusion hsome
    · intro e i hsome _; exact Option.noConfusion hsome
  · rcases hu : urb device e i tbl setup data with u | resp
    · refine ⟨usbip_ret_submit_fail { header with command := USBIP_RET_SUBMIT },
        ?_, ?_, ?_, ?_⟩
      · simp [handlerStep, hget, hfe, hu]
      · intro hnone; exact Option.noConfusion hnone
      · intro e' i' resp hsome hok
        injection hsome with hpair
        have he : e = e' := congrArg Prod.fst hpair
        have hi : i = i' := congrArg Prod.snd hpair
        rw [← he, ← hi, hu] at hok
        exact Except.noConfusion hok
      · intro _ _ _ _; rfl
    · refine ⟨usbip_ret_submit_success { header with command := USBIP_RET_SUBMIT }
        resp, ?_, ?_, ?_, ?_⟩
      · simp [handlerStep, hget, hfe, hu]
      · intro hnone; exact Option.noConfusion hnone
      · intro e' i' resp' hsome hok
        injection hsome with hpair
        have he : e = e' := congrArg Prod.fst hpair
        have hi : i = i' := congrArg Prod.snd hpair
        rw [← he, ← hi, hu] at hok
        injection hok with hr
        rw [← hr]
        rfl
      · intro e' i' hsome herr
        injection hsome with hpair
        have he : e = e' := congrArg Prod.fst hpair
        have hi : i = i' := congrArg Prod.snd hpair
        rw [← he, ← hi, hu] at herr
        exact Except.noConfusion herr

/-- Witness for C5: a CMD_SUBMIT on endpoint 1 IN of the bound sample device
(which has no such endpoint) stalls with status -1 and zero actual length. -/
theorem cmd_submit_semantics_witness :
    ∃ rep : UsbIpResponse,
      handlerStep urbSample regUsed (some [48, 45, 48, 45, 48])
        (.ok (.usbIpCmdSubmit ⟨1, 1, 0, 1, 1⟩ 0 0 0 0 0
          [0, 0, 0, 0, 0, 0, 0, 0] [] [])) =
        some ⟨regUsed, some [48, 45, 48, 45, 48], some rep, .next⟩ ∧
      (find_ep devA
          ((if (1 : Nat) = 0 then 1 else (1 : Nat) ||| 0x80) % 256) = none →
        rep = .usbipRetSubmit ⟨USBIP_RET_SUBMIT, 1, 0, 1, 1⟩ (-1) 0 []) := by
  obtain ⟨rep, h1, h2, _, _⟩ :=
    cmd_submit_semantics urbSample regUsed [48, 45, 48, 45, 48] devA
      ⟨1, 1, 0, 1, 1⟩ 0 0 0 0 0 [0, 0, 0, 0, 0, 0, 0, 0] [] [] (by decide)
  exact ⟨rep, h1, h2⟩

/-- C8: every USBIP_CMD_UNLINK is answered by RET_UNLINK with status 0,
whatever the `unlink_seqnum` and whether or not anything is in flight, the
registry and binding are untouched, and the session reads the next PDU. -/
theorem cmd_unlink_semantics (urb : UrbHandler) (reg : ServerState)
    (bound : Option BusId) (header : UsbIpHeaderBasic) (seqnum : Nat) :
    handlerStep urb reg bound (.ok (.usbIpCmdUnlink header seqnum)) =
      some ⟨reg, bound,
        some (.usbipRetUnlink { header with command := USBIP_RET_UNLINK } 0),
        .next⟩ := by
  simp [handlerStep, usbip_ret_unlink_success]

/-- Counterexample to C6 as stated: an OP_* request (OP_REQ_DEVLIST) arriving
while "0-0-0" is bound is not treated as a protocol error - the server
answers with the device list and the session carries on (`SessResult.next`),
rather than closing the connection. -/
theorem wrong_state_counterexample :
    handlerStep urbSample regUsed (some [48, 45, 48, 45, 48])
        (.ok (.opReqDevlist 0)) =
      some ⟨regUsed, some [48, 45, 48, 45, 48],
        some (op_rep_devlist regUsed.available), .next⟩ := by
  decide

/-- C6 amended: a USBIP_CMD_SUBMIT with no device bound panics the session
task (modelled by `none`), which closes the connection with nothing to
release; OP_* requests while a device is bound are NOT protocol errors:
OP_REQ_DEVLIST is answered normally and the session continues, and
OP_REQ_IMPORT discards the session's binding and re-runs the import (on a
failed re-import the registry is unchanged, so the previously bound device
stays in *imported* with no owner). -/
theorem wrong_state_behaviour (urb : UrbHandler) (reg : ServerState)
    (st : Nat) (b : BusId) :
    (∀ (header : UsbIpHeaderBasic) (tflags : Nat) (tbl : Int) (sf np iv : Nat)
      (setup data iso : List Nat),
      handlerStep urb reg none
        (.ok (.usbIpCmdSubmit header tflags tbl sf np iv setup data iso)) =
        none) ∧
    (handlerStep urb reg (some b) (.ok (.opReqDevlist st)) =
      some ⟨reg, some b, some (op_rep_devlist reg.available), .next⟩) ∧
    (∀ busid : List Nat, (∀ x ∈ reg.available, truncBusid busid ≠ x.bus_id) →
      handlerStep urb reg (some b) (.ok (.opReqImport st busid)) =
        some ⟨reg, none, some op_rep_import_fail, .next⟩) := by
  refine ⟨?_, ?_, ?_⟩
  · intro header tflags tbl sf np iv setup data iso
    simp [handlerStep]
  · simp [handlerStep]
  · intro busid hall
    have himp := (importFrom_eq_none_iff (truncBusid busid) reg.available).mpr hall
    simp [handlerStep, op_req_import, himp]

/-- Witness for the amended C6: with "0-0-0" bound and an empty *available*
list, a re-import of "1-1-1" drops the binding, leaves the registry (and the
orphaned *imported* entry) unchanged, and replies failure. -/
theorem wrong_state_behaviour_witness :
    handlerStep urbSample
        { available := [], used := [([48, 45, 48, 45, 48], devA)] }
        (some [48, 45, 48, 45, 48])
        (.ok (.opReqImport 0 [49, 45, 49, 45, 49])) =
      some ⟨{ available := [], used := [([48, 45, 48, 45, 48], devA)] },
        none, some op_rep_import_fail, .next⟩ :=
  (wrong_state_behaviour urbSample
    { available := [], used := [([48, 45, 48, 45, 48], devA)] }
    0 [48, 45, 48, 45, 48]).2.2 [49, 45, 49, 45, 49] (by decide)

/-- Counterexample to C9 as stated: for a host device on bus 1, address 2,
port 3, with descriptor max packet size 64, the nusb backend does not build
`bus_id = "{bus}-{addr}-{port}"` or `path = "/sys/bus/{bus}/{addr}/{port}"`
(it hard-codes 0 for the port component) and does not take the ep0 max packet
size from the device descriptor (it hard-codes 16). -/
theorem host_backend_counterexample :
    nusb_bus_id 1 2 ≠ claimed_bus_id 1 2 3 ∧
    nusb_path 1 2 ≠ claimed_path 1 2 3 ∧
    nusb_ep0_in.max_packet_size ≠ 64 ∧
    nusb_ep0_out.max_packet_size ≠ 64 := by
  refine ⟨?_, ?_, by decide, by decide⟩ <;> decide

/-- C9 amended: the rusb backend constructs
`bus_id = "{bus}-{addr}-{port}"` and `path = "/sys/bus/{bus}/{addr}/{port}"`
from the device's bus number, address and port number, and builds
ep0_in (0x80) / ep0_out (0x00) as control endpoints whose max packet size
comes from the real device descriptor; the nusb backend uses the literal 0 in
place of the port component of both strings and hard-codes the ep0 max packet
size to 16. -/
theorem host_backend_construction (bus addr port mps : Nat) :
    rusb_bus_id bus addr port = claimed_bus_id bus addr port ∧
    rusb_path bus addr port = claimed_path bus addr port ∧
    rusb_ep0_in mps = UsbEndpoint.mk 0x80 controlAttr mps 0 ∧
    rusb_ep0_out mps = UsbEndpoint.mk 0x00 controlAttr mps 0 ∧
    nusb_bus_id bus addr = claimed_bus_id bus addr 0 ∧
    nusb_path bus addr = claimed_path bus addr 0 ∧
    nusb_ep0_in = UsbEndpoint.mk 0x80 controlAttr 16 0 ∧
    nusb_ep0_out = UsbEndpoint.mk 0x00 controlAttr 16 0 :=
  ⟨rfl, rfl, rfl, rfl, rfl, rfl, rfl, rfl⟩

/-- C10: `verify_descriptor` returns normally exactly when the walk never
visits an in-bounds offset holding the byte 0 (each iteration then strictly
increases the offset, so `desc.length` iterations suffice) and the final
offset lands exactly on `desc.length`; visiting a zero byte keeps every
iterate strictly below `desc.length` forever (the loop never terminates,
`verify_descriptor` is `none`); and a walk that overshoots past `desc.length`
terminates but fails the final `assert_eq!` (`some false`). -/
theorem verify_descriptor_characterization (desc : List Nat) :
    (verify_descriptor desc = some true ↔
      ¬ BadVisit desc ∧ walkIter desc desc.length 0 = desc.length) ∧
    (BadVisit desc →
      (∀ n : Nat, walkIter desc n 0 < desc.length) ∧
      verify_descriptor desc = none) ∧
    (desc.length < walkIter desc desc.length 0 →
      verify_descriptor desc = some false) := by
  refine ⟨⟨?_, ?_⟩, ?_, ?_⟩
  · intro h
    unfold verify_descriptor at h
    by_cases hc : desc.length ≤ walkIter desc desc.length 0
    · rw [if_pos hc] at h
      injection h with h
      have hland : walkIter desc desc.length 0 = desc.length := by
        simpa using h
      refine ⟨?_, hland⟩
      intro hb
      have := walkIter_lt_of_bad desc hb desc.length
      omega
    · rw [if_neg hc] at h
      exact Option.noConfusion h
  · rintro ⟨hnb, hland⟩
    unfold verify_descriptor
    rw [if_pos (le_of_eq hland.symm)]
    simp [hland]
  · intro hb
    have hlt := walkIter_lt_of_bad desc hb
    refine ⟨hlt, ?_⟩
    unfold verify_descriptor
    rw [if_neg (Nat.not_le.mpr (hlt desc.length))]
  · intro hover
    unfold verify_descriptor
    rw [if_pos (Nat.le_of_lt hover)]
    simp [Nat.ne_of_gt hover]

/-- Witness for C10 at a concrete descriptor: `[3]` overshoots (offset 0 then
3 > 1), so the walk terminates and the final assertion fails. -/
theorem verify_descriptor_characterization_witness :
    verify_descriptor [3] = some false :=
  (verify_descriptor_characterization [3]).2.2 (by decide)

/-- C2: single ownership.  In every state reachable (by spawning sessions,
handler-loop iterations, panics and administrative add/remove) from a state
satisfying the system invariant, the invariant still holds - in particular at
most one session holds a given bus-id bound at a time, because OP_REQ_IMPORT
only hands out a bus-id taken from *available* (which the invariant keeps
disjoint from every bound bus-id) inside one exclusive critical section. -/
theorem single_ownership (urb : UrbHandler) (init s : Sys)
    (hinit : SysInv init) (hreach : SysReach urb init s) :
    SysInv s ∧
    ∀ (i j : Nat) (b : BusId), s.sessions[i]? = some (some b) →
      s.sessions[j]? = some (some b) → i = j := by
  have h := sysInv_reach urb hinit hreach
  exact ⟨h, h.2.2⟩

/-- Witness for C2: from the one-session sample system, spawning a second
session reaches a state that still satisfies the system invariant (and so the
at-most-one-holder property). -/
theorem single_ownership_witness :
    SysInv { reg := regSample, sessions := [none, none] } :=
  (single_ownership urbSample sysSample
    { reg := regSample, sessions := [none, none] }
    ⟨by decide,
      fun i b h => by rcases i with _ | i <;> simp [sysSample] at h,
      fun i j b hi hj => by rcases i with _ | i <;> simp [sysSample] at hi⟩
    (SysReach.tail _ _ _ (SysReach.refl sysSample)
      (SysStep.spawn sysSample))).1

end Usbip
